import Mathlib

/-!
Verification development for the `polarhive/ash` chat-room automation agent.

Shallow embedding of the command dispatch and conversational-state engine:
the text utilities (`util` package), the bot catalog and executor skeleton
(`bot` package), the knock-knock conversational state store, the yap
leaderboard queries (embedding the SQL the code issues), and the dispatch
router (`app` package).  Strings are modelled as Lean `String`/`List Char`;
Go byte indices coincide with character indices on the ASCII data these
claims exercise.  Network, file, database and Matrix-client effects are
outside the embedding: functions that in Go send a message are modelled by
returning the decision or the body they would send.
-/

/-! ## util package (src/unnamed/part_000, package util) -/

/-- util.InSlice: linear membership scan over a string slice. -/
def inSlice (slice : List String) (item : String) : Bool :=
  slice.any (fun s => s == item)

/-- Whether `p` is a prefix of the second list (strings.HasPrefix on chars). -/
def isPrefixL : List Char → List Char → Bool
  | [], _ => true
  | _ :: _, [] => false
  | p :: ps, c :: cs => p == c && isPrefixL ps cs

/-- strings.HasPrefix. -/
def startsWithS (s p : String) : Bool :=
  isPrefixL p.toList s.toList

/-- strings.Contains on char lists: `sub` occurs somewhere in the list. -/
def containsL : List Char → List Char → Bool
  | [], sub => sub.isEmpty
  | c :: t, sub => isPrefixL sub (c :: t) || containsL t sub

/-- strings.Contains. -/
def containsS (s sub : String) : Bool :=
  containsL s.toList sub.toList

/-- strings.TrimPrefix: drop `p` from the front when present, else unchanged. -/
def trimPrefixS (s p : String) : String :=
  if isPrefixL p.toList s.toList then String.mk (s.toList.drop p.toList.length) else s

/-- strings.TrimSpace on a char list (whitespace at both ends removed). -/
def trimL (l : List Char) : List Char :=
  ((l.dropWhile Char.isWhitespace).reverse.dropWhile Char.isWhitespace).reverse

/-- strings.TrimSpace. -/
def trimS (s : String) : String :=
  String.mk (trimL s.toList)

/-- Accumulator for `fieldsL`: collects the current word (reversed). -/
def fieldsAux : List Char → List Char → List (List Char)
  | [], acc => if acc.isEmpty then [] else [acc.reverse]
  | c :: cs, acc =>
    if c.isWhitespace then
      if acc.isEmpty then fieldsAux cs [] else acc.reverse :: fieldsAux cs []
    else fieldsAux cs (c :: acc)

/-- strings.Fields: split around runs of whitespace, no empty words. -/
def fieldsL (l : List Char) : List (List Char) :=
  fieldsAux l []

/-- strings.Fields on a `String`. -/
def fieldsS (s : String) : List String :=
  (fieldsL s.toList).map String.mk

/-- Decimal value of a digit run. -/
def digitsVal (ds : List Char) : Nat :=
  ds.foldl (fun a c => a * 10 + (c.toNat - '0'.toNat)) 0

/-- strconv.Atoi: optional sign then digits, the whole string must parse.
(Overflow of 64-bit ints is not modelled; the call sites parse small limits.) -/
def strconvAtoi (s : String) : Option Int :=
  match s.toList with
  | [] => none
  | '+' :: r => if !r.isEmpty && r.all Char.isDigit then some (Int.ofNat (digitsVal r)) else none
  | '-' :: r => if !r.isEmpty && r.all Char.isDigit then some (-(Int.ofNat (digitsVal r))) else none
  | l =>
    if l.all Char.isDigit then some (Int.ofNat (digitsVal l)) else none

/-- fmt.Sscanf with verb d: skip leading whitespace, optional sign, then the
longest digit run (at least one digit); trailing text is ignored. -/
def sscanfD (s : String) : Option Int :=
  let cs := s.toList.dropWhile Char.isWhitespace
  match cs with
  | '-' :: r =>
    let ds := r.takeWhile Char.isDigit
    if ds.isEmpty then none else some (-(Int.ofNat (digitsVal ds)))
  | '+' :: r =>
    let ds := r.takeWhile Char.isDigit
    if ds.isEmpty then none else some (Int.ofNat (digitsVal ds))
  | l =>
    let ds := l.takeWhile Char.isDigit
    if ds.isEmpty then none else some (Int.ofNat (digitsVal ds))

/-- strings.LastIndex for a single character: index of the last occurrence. -/
def lastIdxOf (c : Char) : List Char → Option Nat
  | [] => none
  | x :: xs =>
    match lastIdxOf c xs with
    | some i => some (i + 1)
    | none => if x == c then some 0 else none

/-- util.TruncateText: truncate to roughly a token budget (4 chars per token),
preferring to cut at the last line break, else the last space, when that
boundary lies past the midpoint of the character budget. -/
def truncateText (text : List Char) (tokenLimit : Nat) : List Char :=
  if text.length / 4 ≤ tokenLimit then text
  else
    let maxChars := tokenLimit * 4
    let t := if maxChars < text.length then text.take maxChars else text
    match lastIdxOf '\n' t with
    | some i =>
      if maxChars / 2 < i then t.take i
      else
        match lastIdxOf ' ' t with
        | some j => if maxChars / 2 < j then t.take j else t
        | none => t
    | none =>
      match lastIdxOf ' ' t with
      | some j => if maxChars / 2 < j then t.take j else t
      | none => t

/-! ## JSON values and util.ExtractJSONPath

Go's `encoding/json` decodes into `map[string]interface{}`, `[]interface{}`,
`string`, `float64`, `bool` and `nil`.  A JSON `null` decodes to the nil
interface, which `ExtractJSONPath` cannot tell apart from an absent value, so
the model has no null constructor: absence (`Option.none`) plays both roles.
Numbers are carried as `Int` — their value is never inspected by extraction,
only their not being an object or array matters. -/

inductive Json where
  | str : String → Json
  | num : Int → Json
  | bool : Bool → Json
  | arr : List Json → Json
  | obj : List (String × Json) → Json

/-- Go map lookup `m[p]`: missing keys give the nil interface (`none`). -/
def jsonLookup (m : List (String × Json)) (k : String) : Option Json :=
  (m.find? (fun p => p.1 == k)).map (·.2)

/-- strings.Split(path, "."), accumulator form. -/
def splitOnDot : List Char → List Char → List (List Char)
  | [], acc => [acc.reverse]
  | c :: cs, acc =>
    if c == '.' then acc.reverse :: splitOnDot cs [] else splitOnDot cs (c :: acc)

/-- strings.Split(path, ".") on a `String`. -/
def splitDotS (s : String) : List String :=
  (splitOnDot s.toList []).map String.mk

/-- The traversal loop of util.ExtractJSONPath: `cur` is the current value
(`none` = Go nil interface); objects index by key (missing gives nil and the
loop continues), arrays by a scanned integer with a bound check, anything
else ends the walk with nil. -/
def extractLoop : Option Json → List String → Option Json
  | cur, [] => cur
  | none, _ :: _ => none
  | some (Json.obj m), p :: rest => extractLoop (jsonLookup m p) rest
  | some (Json.arr a), p :: rest =>
    (match sscanfD p with
     | some idx =>
       if 0 ≤ idx ∧ idx < (a.length : Int) then extractLoop a[idx.toNat]? rest else none
     | none => none)
  | some (Json.str _), _ :: _ => none
  | some (Json.num _), _ :: _ => none
  | some (Json.bool _), _ :: _ => none

/-- util.ExtractJSONPath: the empty path returns the root unchanged, else the
dot-separated segments are walked by `extractLoop`. -/
def extractJSONPath (root : Json) (path : String) : Option Json :=
  if path = "" then some root else extractLoop (some root) (splitDotS path)

/-! ## Bot catalog (src/bot/bot.go, src/bot/commands.go) -/

/-- bot.BotCommand: one catalog entry, all kinds' fields flattened as in the
Go struct (the `params` map of free-form JSON is not needed by any claim and
is omitted). -/
structure BotCommand where
  type : String := ""
  method : String := ""
  url : String := ""
  headers : List (String × String) := []
  jsonPath : String := ""
  responseType : String := ""
  command : String := ""
  args : List String := []
  inputType : String := ""
  outputType : String := ""
  model : String := ""
  maxTokens : Int := 0
  prompt : String := ""
  response : String := ""
  mention : Bool := false
deriving DecidableEq

/-- bot.BotConfig: the structure of bot.json (commands keyed by name). -/
structure BotConfig where
  label : String := ""
  commands : List (String × BotCommand) := []

/-- bot.LoadBotConfig, modelled after a successful JSON decode: the function
only opens the file and decodes — it performs no per-entry validation, so
every decoded document is returned unchanged.  (encoding/json fills missing
fields with zero values and accepts any string in `type`; file-open and
JSON-syntax errors are whole-document failures outside this embedding.) -/
def loadBotConfig (doc : BotConfig) : Except String BotConfig :=
  Except.ok doc

/-- The outcome of bot.FetchBotCommand as far as the pure dispatch skeleton
goes: a non-empty static `response` is returned as text before any kind
dispatch; a recognized kind hands off to its handler (network, subprocess,
AI, builtin — effects outside the embedding); an unrecognized kind is the
error `unknown command type`. -/
inductive FetchOutcome where
  | text : String → FetchOutcome
  | delegated : String → FetchOutcome
  | failure : String → FetchOutcome
deriving DecidableEq

/-- bot.FetchBotCommand's top-level dispatch (src/bot/commands.go lines 29-45). -/
def fetchBotCommand (c : BotCommand) : FetchOutcome :=
  if c.response != "" then FetchOutcome.text c.response
  else if c.type == "http" then FetchOutcome.delegated "http"
  else if c.type == "exec" then FetchOutcome.delegated "exec"
  else if c.type == "ai" then FetchOutcome.delegated "ai"
  else if c.type == "builtin" then FetchOutcome.delegated "builtin"
  else FetchOutcome.failure ("unknown command type: " ++ c.type)

/-- The reply body the dispatch goroutine sends (src/app/app.go lines 183-195):
an error becomes the apology, a non-empty result is posted, an empty result
means the command already sent its own message. -/
def commandReplyBody (cmd : String) : Except String String → Option String
  | Except.error _ => some ("sorry, couldn't execute " ++ cmd ++ " right now")
  | Except.ok "" => none
  | Except.ok r => some r

/-! ## Knock-knock conversational state (src/bot/bot.go, src/app/app.go) -/

/-- bot.KnockKnockJoke. -/
structure KnockKnockJoke where
  name : String
  punchline : String
deriving DecidableEq

/-- bot.KnockKnockStep: step 0 awaits "who's there?", step 1 awaits
"name who?". -/
structure KnockKnockStep where
  joke : KnockKnockJoke
  step : Nat
  label : String
deriving DecidableEq

/-- bot.KnockKnockState's `pending` map, as an association list with at most
one entry per key (the mutex serializing access is outside the sequential
embedding). -/
abbrev KKState := List (String × KnockKnockStep)

/-- KnockKnockState.Set: map assignment (replaces any entry under the key). -/
def kkSet (s : KKState) (k : String) (v : KnockKnockStep) : KKState :=
  (k, v) :: s.filter (fun p => p.1 != k)

/-- KnockKnockState.Get: lookup of the key in the map. -/
def kkGet : KKState → String → Option KnockKnockStep
  | [], _ => none
  | (k', v) :: t, k => if k' == k then some v else kkGet t k

/-- KnockKnockState.Delete. -/
def kkDel (s : KKState) (k : String) : KKState :=
  s.filter (fun p => p.1 != k)

/-- Key uniqueness invariant of the map embedding. -/
def kkWF (s : KKState) : Prop :=
  (s.map Prod.fst).Nodup

/-- App.startKnockKnock: the opener is posted and step 0 is recorded under the
opener's own event id (`openerID` is the fresh id of the bot's message; the
5-minute timed eviction is an independent later `kkDel`). -/
def startKnockKnock (s : KKState) (openerID : String) (j : KnockKnockJoke) (label : String) :
    KKState :=
  kkSet s openerID ⟨j, 0, label⟩

/-- What App.handleKnockKnockReply sends. -/
inductive KKAction where
  | sentName : String → KKAction
  | sentPunchline : String → KKAction
deriving DecidableEq

/-- App.handleKnockKnockReply: the matched entry at `origEventID` is deleted
first; at step 0 the name line is posted and step 1 recorded under the new
message's id `nameMsgID`, otherwise the punchline is posted and nothing is
recorded. -/
def handleKnockKnockReply (s : KKState) (origEventID : String) (st : KnockKnockStep)
    (nameMsgID : String) : KKState × KKAction :=
  let s1 := kkDel s origEventID
  if st.step = 0 then
    (kkSet s1 nameMsgID ⟨st.joke, 1, st.label⟩, KKAction.sentName nameMsgID)
  else
    (s1, KKAction.sentPunchline (st.label ++ st.joke.punchline))

/-! ## Yap leaderboard (src/bot/bot.go lines 183-373)

The queries run over the `messages` table; a stored row is modelled by `Msg`.
SQLite's LIKE is case-insensitive on ASCII letters, so the `NOT LIKE`
exclusions compare lower-cased prefixes.  The SQL word count is
`LENGTH(body) - LENGTH(REPLACE(body, ' ', '')) + 1`: one plus the number of
space characters. -/

/-- A row of the `messages` table (columns the yap queries read). -/
structure Msg where
  room_id : String
  sender : String
  ts_ms : Int
  body : String
  msgtype : String

/-- ASCII lower-casing, as SQLite LIKE applies to ASCII letters. -/
def lowerA (c : Char) : Char :=
  if 'A' ≤ c ∧ c ≤ 'Z' then Char.ofNat (c.toNat + 32) else c

/-- SQLite `body LIKE 'pat%'` for a literal pattern: case-insensitive ASCII
prefix match. -/
def likeCI (pat body : List Char) : Bool :=
  isPrefixL (pat.map lowerA) (body.map lowerA)

/-- The WHERE clause shared by both yap queries: same room, in-window,
body not starting with the bot output marker or a command invocation,
message type m.text. -/
def yapFilter (room : String) (cutoff : Int) (m : Msg) : Bool :=
  m.room_id == room && decide (cutoff ≤ m.ts_ms) &&
    !(likeCI "[BOT]".toList m.body.toList) && !(likeCI "/bot ".toList m.body.toList) &&
    m.msgtype == "m.text"

/-- The SQL word count of one body: `LENGTH(body) - LENGTH(REPLACE(body, ' ', '')) + 1`. -/
def wc (b : List Char) : Nat :=
  b.length - (b.filter (fun c => !(c == ' '))).length + 1

/-- Order-preserving first-occurrence deduplication (the distinct senders the
GROUP BY produces). -/
def firstDedupAux : List String → List String → List String
  | [], _ => []
  | x :: xs, seen =>
    if seen.contains x then firstDedupAux xs seen else x :: firstDedupAux xs (x :: seen)

/-- A sender's total word count over the qualifying messages. -/
def yapScore (msgs : List Msg) (room : String) (cutoff : Int) (s : String) : Nat :=
  (((msgs.filter (yapFilter room cutoff)).filter (fun m => m.sender == s)).map
    (fun m => wc m.body.toList)).sum

/-- The full ranking both queries compute: group the qualifying messages by
sender, sum the SQL word count, order by count descending (ORDER BY
word_count DESC; ties in an unspecified order, here insertion sort's). -/
def yapRanking (msgs : List Msg) (room : String) (cutoff : Int) : List (String × Nat) :=
  let f := msgs.filter (yapFilter room cutoff)
  List.insertionSort (fun a b => b.2 ≤ a.2)
    ((firstDedupAux (f.map (·.sender)) []).map (fun s =>
      (s, ((f.filter (fun m => m.sender == s)).map (fun m => wc m.body.toList)).sum)))

/-- QueryTopYappers' LIMIT: default 5; a positive parsed argument overrides;
hard cap 50. -/
def parseLimit (args : String) : Nat :=
  let l := if args != "" then
      match strconvAtoi (trimS args) with
      | some n => if 0 < n then n.toNat else 5
      | none => 5
    else 5
  if 50 < l then 50 else l

/-- bot.QueryTopYappers' ranking core (src/bot/bot.go lines 183-222): the Go
function first delegates an args string starting with "guess" to
queryYapGuess, then runs the SELECT modelled here; display-name resolution
and message formatting around this list are I/O. -/
def queryTopYappers (msgs : List Msg) (room : String) (cutoff : Int) (args : String) :
    List (String × Nat) :=
  (yapRanking msgs room cutoff).take (parseLimit args)

/-- queryYapGuess's guess argument: default 1; a positive parsed value overrides. -/
def parseGuess (guessArg : String) : Nat :=
  if guessArg != "" then
    match strconvAtoi (trimS guessArg) with
    | some n => if 0 < n then n.toNat else 1
    | none => 1
  else 1

/-- The row scan of queryYapGuess: rank rows in order, report the 1-based
position and count of the caller (senders are unique after GROUP BY, so the
first match is the only one). -/
def guessScan : List (String × Nat) → String → Nat → Option (Nat × Nat)
  | [], _, _ => none
  | (s, c) :: rest, sender, rank =>
    if s == sender then some (rank + 1, c) else guessScan rest sender (rank + 1)

/-- bot.queryYapGuess (src/bot/bot.go lines 297-373): the reply body it
builds (sent as a reply when a client is present, returned otherwise). -/
def queryYapGuess (msgs : List Msg) (room sender : String) (cutoff : Int)
    (guessArg : String) (replyLabel : String) : String :=
  let guess := parseGuess guessArg
  match guessScan (yapRanking msgs room cutoff) sender 0 with
  | none => "you have no messages today!"
  | some (actualPos, totalWords) =>
    if guess = actualPos then
      replyLabel ++ "you guessed #" ++ toString guess ++ " — that's exactly right! (" ++
        toString totalWords ++ " words)"
    else
      let direction := if actualPos < guess then "lower" else "higher"
      let absDiff := if actualPos < guess then guess - actualPos else actualPos - guess
      replyLabel ++ "you guessed #" ++ toString guess ++ " but you're actually #" ++
        toString actualPos ++ " (" ++ toString totalWords ++ " words) — " ++
        toString absDiff ++ " position(s) " ++ direction ++ " than you thought"

/-! ## Dispatch router (src/app/app.go) -/

/-- config.RoomIDEntry: `allowedCommands` distinguishes a JSON-absent list
(`none`, command handling disabled) from an empty one (`some []`, all
commands allowed). -/
structure RoomIDEntry where
  id : String := ""
  comment : String := ""
  hook : String := ""
  key : String := ""
  sendUser : Bool := false
  sendTopic : Bool := false
  allowedCommands : Option (List String) := none
deriving DecidableEq

/-- app.ResolveReplyLabel: config label, else bot.json label, else the
default (a nil config or bot config behaves as an empty label). -/
def resolveReplyLabel (cfgLabel botLabel : String) : String :=
  if cfgLabel != "" then cfgLabel
  else if botLabel != "" then botLabel
  else "> "

/-- Byte-lexicographic order on char lists (sort.Strings' order; UTF-8 byte
order agrees with code-point order). -/
def leChars : List Char → List Char → Bool
  | [], _ => true
  | _ :: _, [] => false
  | a :: as, b :: bs =>
    if a.toNat < b.toNat then true
    else if b.toNat < a.toNat then false
    else leChars as bs

/-- sort.Strings' comparison on `String`. -/
def leS (a b : String) : Bool :=
  leChars a.toList b.toList

/-- The command list app.GenerateHelpMessage renders: the allowed subset when
non-empty, else all catalog names, sorted ascending. -/
def generateHelpList (botCfg : BotConfig) (allowed : List String) : List String :=
  List.insertionSort (fun a b => leS a b = true)
    (if 0 < allowed.length then allowed else botCfg.commands.map (·.1))

/-- app.GenerateHelpMessage (src/app/app.go lines 60-73). -/
def generateHelpMessage (botCfg : BotConfig) (allowed : List String) : String :=
  "Available commands: " ++ String.intercalate ", " (generateHelpList botCfg allowed)

/-- The command-name resolution of App.dispatchBotCommand (lines 142-150):
an "@gork" body is normalized to "/bot gork <trimmed rest>", then the second
whitespace field names the command, defaulting to "hi". -/
def resolveCmdName (body : String) : String :=
  let normalized :=
    if startsWithS body "@gork" then "/bot gork " ++ trimS (trimPrefixS body "@gork")
    else body
  match fieldsS normalized with
  | _ :: w :: _ => if w != "" then w else "hi"
  | _ => "hi"

/-- Catalog lookup `app.BotCfg.Commands[cmd]`. -/
def lookupCmd (cmds : List (String × BotCommand)) (k : String) : Option BotCommand :=
  (cmds.find? (fun p => p.1 == k)).map (·.2)

/-- What App.dispatchBotCommand decides to do for a command message (after
the dry-run and ready/cancellation gates, which are configuration and
concurrency outside the embedding).  `notAllowed` sends the fixed
"command not allowed in this room" reply and returns — the executor
(`fetchBotCommand`) is reached only through `execute`. -/
inductive DispatchDecision where
  | notAllowed
  | noBotCfg
  | helpReply
  | unknownCmd
  | knockknock
  | execute : BotCommand → DispatchDecision
deriving DecidableEq

/-- App.dispatchBotCommand (src/app/app.go lines 131-196), as the decision it
reaches: permission gate first (non-empty allow-list, name not listed, name
not the reserved "hi"), then missing bot config, the literal "help" token,
unknown names, the knockknock special case, and finally execution. -/
def dispatchBotCommand (botCfg : Option BotConfig) (allowed : List String) (body : String) :
    DispatchDecision :=
  let cmd := resolveCmdName body
  if 0 < allowed.length ∧ inSlice allowed cmd = false ∧ cmd ≠ "hi" then
    DispatchDecision.notAllowed
  else
    match botCfg with
    | none => DispatchDecision.noBotCfg
    | some bc =>
      if cmd == "help" then DispatchDecision.helpReply
      else
        match lookupCmd bc.commands cmd with
        | none => DispatchDecision.unknownCmd
        | some c =>
          if c.type == "builtin" && c.command == "knockknock" then DispatchDecision.knockknock
          else DispatchDecision.execute c

/-- How App.HandleMessage routes an incoming message. -/
inductive Route where
  | notMonitored
  | ignoredLabel
  | knockReply
  | command
  | passthrough
deriving DecidableEq

/-- The routing of App.HandleMessage once a room entry is in hand: skip when
the body contains the configured reply label, then knock-knock continuations
(a reply whose target id has a pending entry), then the command path (room
has an allow-list, body starts with "/bot" or "@gork"), else link handling. -/
def routeMonitored (entry : RoomIDEntry) (cfgLabel : String) (kkKeys : List String)
    (body : String) (inReplyTo : Option String) : Route :=
  if cfgLabel != "" && containsS body cfgLabel then Route.ignoredLabel
  else if (match inReplyTo with
           | some e => kkKeys.contains e
           | none => false) then Route.knockReply
  else if entry.allowedCommands.isSome &&
      (startsWithS body "/bot" || startsWithS body "@gork") then Route.command
  else Route.passthrough

/-- App.HandleMessage's routing (src/app/app.go lines 76-118): an unknown
room is ignored when a room list is configured; with no configured rooms the
zero-value entry (no allow-list) is used, as in App.findRoom.  `kkKeys` are
the event ids with a pending knock-knock entry; `cfgLabel` is
`config.BOT_REPLY_LABEL` — the loop-prevention check reads only this field. -/
def handleMessageRoute (rooms : List RoomIDEntry) (cfgLabel : String) (kkKeys : List String)
    (rid body : String) (inReplyTo : Option String) : Route :=
  match rooms.find? (fun r => r.id == rid) with
  | none =>
    if 0 < rooms.length then Route.notMonitored
    else routeMonitored {} cfgLabel kkKeys body inReplyTo
  | some entry => routeMonitored entry cfgLabel kkKeys body inReplyTo

/-! ## Concrete fixtures used by the claims -/

/-- The spec's leaderboard example: in-window word counts alice 10, bob 6,
carol 1 (each body's SQL word count is spaces + 1). -/
def exYapMsgs : List Msg :=
  [⟨"!r", "@alice", 1, "hello a", "m.text"⟩, ⟨"!r", "@alice", 1, "hello b", "m.text"⟩,
   ⟨"!r", "@alice", 1, "hello c", "m.text"⟩, ⟨"!r", "@alice", 1, "hello d", "m.text"⟩,
   ⟨"!r", "@alice", 1, "hello e", "m.text"⟩,
   ⟨"!r", "@bob", 1, "hey a", "m.text"⟩, ⟨"!r", "@bob", 1, "hey b", "m.text"⟩,
   ⟨"!r", "@bob", 1, "hey c", "m.text"⟩,
   ⟨"!r", "@carol", 1, "sup", "m.text"⟩]

/-- The spec's JSON example document. -/
def exJson : Json :=
  Json.obj [("a", Json.obj [("b", Json.str "v")])]

/-- A catalog entry with an unrecognized kind and no static response. -/
def badCatalogEntry : BotCommand :=
  { type := "bogus" }

/-- A catalog document containing the malformed entry. -/
def badCatalog : BotConfig :=
  ⟨"", [("weird", badCatalogEntry)]⟩

/-! ## Helper lemmas -/

theorem leChars_total : ∀ a b : List Char, leChars a b = true ∨ leChars b a = true
  | [], _ => Or.inl rfl
  | _ :: _, [] => Or.inr rfl
  | a :: as, b :: bs => by
    by_cases h1 : a.toNat < b.toNat
    · left; simp [leChars, h1]
    · by_cases h2 : b.toNat < a.toNat
      · right; simp [leChars, h1, h2]
      · rcases leChars_total as bs with h | h
        · left; simp [leChars, h1, h2, h]
        · right; simp [leChars, h1, h2, h]

theorem leChars_trans :
    ∀ a b c : List Char, leChars a b = true → leChars b c = true → leChars a c = true
  | [], _, _, _, _ => rfl
  | _ :: _, [], _, h, _ => by simp [leChars] at h
  | _ :: _, _ :: _, [], _, h2 => by simp [leChars] at h2
  | a :: as, b :: bs, c :: cs, h1, h2 => by
    simp only [leChars] at h1 h2 ⊢
    by_cases hab : a.toNat < b.toNat
    · by_cases hbc : b.toNat < c.toNat
      · have hac : a.toNat < c.toNat := by omega
        simp [hac]
      · rw [if_neg hbc] at h2
        by_cases hcb : c.toNat < b.toNat
        · rw [if_pos hcb] at h2; exact absurd h2 (by simp)
        · have hac : a.toNat < c.toNat := by omega
          simp [hac]
    · rw [if_neg hab] at h1
      by_cases hba : b.toNat < a.toNat
      · rw [if_pos hba] at h1; exact absurd h1 (by simp)
      · rw [if_neg hba] at h1
        by_cases hbc : b.toNat < c.toNat
        · have hac : a.toNat < c.toNat := by omega
          simp [hac]
        · rw [if_neg hbc] at h2
          by_cases hcb : c.toNat < b.toNat
          · rw [if_pos hcb] at h2; exact absurd h2 (by simp)
          · rw [if_neg hcb] at h2
            have hac : ¬ a.toNat < c.toNat := by omega
            have hca : ¬ c.toNat < a.toNat := by omega
            rw [if_neg hac, if_neg hca]
            exact leChars_trans as bs cs h1 h2

theorem kkGet_set_self (s : KKState) (k : String) (v : KnockKnockStep) :
    kkGet (kkSet s k v) k = some v := by
  simp [kkGet, kkSet]

theorem kkGet_del_self (s : KKState) (k : String) : kkGet (kkDel s k) k = none := by
  induction s with
  | nil => rfl
  | cons p t ih =>
    obtain ⟨pk, pv⟩ := p
    by_cases hp : pk = k
    · simpa [kkDel, hp] using ih
    · simpa [kkDel, kkGet, hp] using ih

theorem kkGet_del_ne (s : KKState) (k k' : String) (h : k' ≠ k) :
    kkGet (kkDel s k) k' = kkGet s k' := by
  have hk : ¬ (k = k') := fun e => h e.symm
  induction s with
  | nil => rfl
  | cons p t ih =>
    obtain ⟨pk, pv⟩ := p
    simp only [kkDel, List.filter_cons] at ih ⊢
    by_cases hp : pk = k
    · subst hp
      simp [kkGet, hk, ih]
    · by_cases hk2 : pk = k'
      · simp [kkGet, hp, hk2, h]
      · simp [kkGet, hp, hk2, ih]

theorem kkGet_set_ne (s : KKState) (k k' : String) (v : KnockKnockStep) (h : k' ≠ k) :
    kkGet (kkSet s k v) k' = kkGet s k' := by
  have hk : k ≠ k' := fun e => h e.symm
  simp only [kkSet, kkGet, beq_iff_eq, if_neg hk]
  exact kkGet_del_ne s k k' h

theorem kkWF_nil : kkWF ([] : KKState) :=
  List.nodup_nil

theorem kkWF_del (s : KKState) (k : String) (h : kkWF s) : kkWF (kkDel s k) :=
  List.Nodup.sublist ((List.filter_sublist s).map Prod.fst) h

theorem kkWF_set (s : KKState) (k : String) (v : KnockKnockStep) (h : kkWF s) :
    kkWF (kkSet s k v) := by
  have hdel := kkWF_del s k h
  refine List.nodup_cons.mpr ⟨?_, hdel⟩
  intro hmem
  obtain ⟨p, hp, hfst⟩ := List.mem_map.mp hmem
  have := (List.mem_filter.mp hp).2
  rw [hfst] at this
  simp at this

theorem lastIdxOf_get (c : Char) :
    ∀ (l : List Char) (i : Nat), lastIdxOf c l = some i → l[i]? = some c := by
  intro l
  induction l with
  | nil => intro i h; simp [lastIdxOf] at h
  | cons x xs ih =>
    intro i h
    unfold lastIdxOf at h
    cases hfind : lastIdxOf c xs with
    | some k =>
      rw [hfind] at h
      obtain rfl : k + 1 = i := by injection h
      simpa using ih k hfind
    | none =>
      rw [hfind] at h
      by_cases hx : x == c
      · rw [if_pos hx] at h
        obtain rfl : 0 = i := by injection h
        simpa using (beq_iff_eq.mp hx)
      · rw [if_neg hx] at h
        exact absurd h (by simp)

theorem truncateText_short (t : List Char) (L : Nat) (h : t.length / 4 ≤ L) :
    truncateText t L = t := by
  unfold truncateText
  rw [if_pos h]

theorem truncLen_le (t : List Char) (L : Nat) (h : ¬ t.length / 4 ≤ L) :
    (truncateText t L).length ≤ 4 * L := by
  have hq := Nat.div_add_mod t.length 4
  have hm : t.length % 4 < 4 := Nat.mod_lt _ (by norm_num)
  have hlt : L < t.length / 4 := Nat.lt_of_not_le h
  have hlen : L * 4 < t.length := by omega
  have htake : (t.take (L * 4)).length = L * 4 := by
    simp [List.length_take]; omega
  unfold truncateText
  rw [if_neg h]
  dsimp only
  rw [if_pos hlen]
  cases hn : lastIdxOf '\n' (t.take (L * 4)) with
  | some i =>
    dsimp only
    by_cases hi : L * 4 / 2 < i
    · rw [if_pos hi]
      simp only [List.length_take]
      omega
    · rw [if_neg hi]
      cases hsp : lastIdxOf ' ' (t.take (L * 4)) with
      | some j =>
        dsimp only
        by_cases hj : L * 4 / 2 < j
        · rw [if_pos hj]
          simp only [List.length_take]
          omega
        · rw [if_neg hj]
          omega
      | none =>
        dsimp only
        omega
  | none =>
    dsimp only
    cases hsp : lastIdxOf ' ' (t.take (L * 4)) with
    | some j =>
      dsimp only
      by_cases hj : L * 4 / 2 < j
      · rw [if_pos hj]
        simp only [List.length_take]
        omega
      · rw [if_neg hj]
        omega
    | none =>
      dsimp only
      omega

theorem firstDedup_subset :
    ∀ (l seen : List String) (x : String), x ∈ firstDedupAux l seen → x ∈ l := by
  intro l
  induction l with
  | nil => intro seen x h; simp [firstDedupAux] at h
  | cons y ys ih =>
    intro seen x h
    unfold firstDedupAux at h
    by_cases hs : seen.contains y
    · rw [if_pos hs] at h
      exact List.mem_cons_of_mem y (ih seen x h)
    · rw [if_neg hs] at h
      rcases List.mem_cons.mp h with rfl | h'
      · exact List.mem_cons_self x ys
      · exact List.mem_cons_of_mem y (ih (y :: seen) x h')

/-! ## Claims -/

/-- C10: for every command spec whose static response text is non-empty,
FetchBotCommand returns that literal text unchanged, short-circuiting the
kind dispatch entirely (no handler is reached, whatever the declared kind). -/
theorem c10_static_short_circuit :
    ∀ c : BotCommand, c.response ≠ "" → fetchBotCommand c = FetchOutcome.text c.response := by
  intro c h
  unfold fetchBotCommand
  rw [if_pos (by simp [h])]

/-- Witness for C10 at a concrete spec that also declares kind http. -/
theorem c10_static_short_circuit_witness :
    fetchBotCommand { type := "http", url := "https://x.example", response := "pong" } =
      FetchOutcome.text "pong" :=
  c10_static_short_circuit _ (by decide)

/-- C4 counterexample: the loader accepts a catalog whose entry declares the
unrecognized kind "bogus" and no static response — validation does not fail
at load time; the bad entry surfaces exactly at dispatch time, as the
executor error "unknown command type". -/
theorem c4_catalog_validation_cex :
    loadBotConfig badCatalog = Except.ok badCatalog ∧
    fetchBotCommand badCatalogEntry = FetchOutcome.failure "unknown command type: bogus" := by
  exact ⟨rfl, by decide⟩

/-- C4 (amended): LoadBotConfig performs no per-entry validation — every
decoded catalog document is accepted unchanged; an entry with an
unrecognized kind and no static response yields the "unknown command type"
error at dispatch time, which the dispatch goroutine converts into the fixed
apology reply rather than a crash. -/
theorem c4_catalog_validation :
    (∀ cfg : BotConfig, loadBotConfig cfg = Except.ok cfg) ∧
    (∀ (c : BotCommand) (name : String), c.response = "" →
      c.type ≠ "http" → c.type ≠ "exec" → c.type ≠ "ai" → c.type ≠ "builtin" →
      fetchBotCommand c = FetchOutcome.failure ("unknown command type: " ++ c.type) ∧
      commandReplyBody name (Except.error ("unknown command type: " ++ c.type)) =
        some ("sorry, couldn't execute " ++ name ++ " right now")) := by
  constructor
  · intro cfg; rfl
  · intro c name hresp h1 h2 h3 h4
    constructor
    · unfold fetchBotCommand
      rw [if_neg (by simp [hresp]), if_neg (by simp [h1]), if_neg (by simp [h2]),
        if_neg (by simp [h3]), if_neg (by simp [h4])]
    · rfl

/-- Witness for C4 at the concrete malformed entry. -/
theorem c4_catalog_validation_witness :
    fetchBotCommand badCatalogEntry = FetchOutcome.failure ("unknown command type: " ++ "bogus") ∧
    commandReplyBody "weird" (Except.error ("unknown command type: " ++ "bogus")) =
      some ("sorry, couldn't execute " ++ "weird" ++ " right now") :=
  c4_catalog_validation.2 badCatalogEntry "weird" rfl (by decide) (by decide) (by decide)
    (by decide)

/-- C1: the room permission gate.  An empty allow-list never denies a
command; a non-empty allow-list denies (fixed "not allowed" reply, executor
never reached) every resolved name that is neither listed nor the reserved
"hi"; a room entry with an absent (`none`) allow-list never routes a message
to the command path at all. -/
theorem c1_room_permission_gate :
    (∀ (bc : Option BotConfig) (body : String),
      dispatchBotCommand bc [] body ≠ DispatchDecision.notAllowed) ∧
    (∀ (bc : Option BotConfig) (l : List String) (body : String),
      l ≠ [] → inSlice l (resolveCmdName body) = false → resolveCmdName body ≠ "hi" →
      dispatchBotCommand bc l body = DispatchDecision.notAllowed) ∧
    (∀ (rooms : List RoomIDEntry) (cfgLabel : String) (kk : List String) (rid body : String)
      (rep : Option String) (entry : RoomIDEntry),
      rooms.find? (fun r => r.id == rid) = some entry → entry.allowedCommands = none →
      handleMessageRoute rooms cfgLabel kk rid body rep ≠ Route.command) := by
  refine ⟨?_, ?_, ?_⟩
  · intro bc body
    unfold dispatchBotCommand
    rw [if_neg (by simp)]
    cases bc with
    | none => simp
    | some bcfg =>
      dsimp only
      split
      · simp
      · split
        · simp
        · split
          · simp
          · simp
  · intro bc l body h1 h2 h3
    unfold dispatchBotCommand
    rw [if_pos ⟨List.length_pos.mpr h1, h2, h3⟩]
  · intro rooms cfgLabel kk rid body rep entry hfind hnone
    unfold handleMessageRoute routeMonitored
    rw [hfind]
    dsimp only
    rw [hnone]
    split
    · simp
    · split
      · simp
      · rw [if_neg (by simp)]
        simp

/-- Witness for C1: a room allowing only "x" denies "/bot y"; a monitored
room without an allow-list never reaches the command path. -/
theorem c1_room_permission_gate_witness :
    dispatchBotCommand (some ⟨"", [("x", { type := "http" })]⟩) ["x"] "/bot y" =
      DispatchDecision.notAllowed ∧
    handleMessageRoute [{ id := "!r" }] "" [] "!r" "/bot y" none ≠ Route.command :=
  ⟨c1_room_permission_gate.2.1 _ ["x"] "/bot y" (by decide) (by decide) (by decide),
   c1_room_permission_gate.2.2 [{ id := "!r" }] "" [] "!r" "/bot y" none { id := "!r" }
     (by decide) rfl⟩

/-- C9 counterexample: with an empty config label and the bot.json label
"[BOT] ", the resolved reply label is "[BOT] ", the body contains it, yet
the router dispatches the message as a command instead of ignoring it — the
loop-prevention check reads only the config label. -/
theorem c9_reply_label_loop_cex :
    resolveReplyLabel "" "[BOT] " = "[BOT] " ∧
    containsS "/bot joke [BOT] hi" "[BOT] " = true ∧
    handleMessageRoute [{ id := "!r", allowedCommands := some [] }] "" [] "!r"
      "/bot joke [BOT] hi" none = Route.command := by
  exact ⟨rfl, by decide, by decide⟩

/-- C9 (amended): when the configuration-level reply label
(`config.BOT_REPLY_LABEL`) is non-empty and the body contains it, the router
classifies the message as ignored (either unmonitored-room or label
suppression) — never a conversational continuation, never a command; when
that config label is empty, no label-based suppression happens even though
outgoing messages are stamped with the label resolved from the catalog label
or the default. -/
theorem c9_reply_label_loop :
    ∀ (rooms : List RoomIDEntry) (kkKeys : List String) (rid body : String)
      (rep : Option String) (cfgLabel : String),
      cfgLabel ≠ "" → containsS body cfgLabel = true →
      handleMessageRoute rooms cfgLabel kkKeys rid body rep = Route.notMonitored ∨
      handleMessageRoute rooms cfgLabel kkKeys rid body rep = Route.ignoredLabel := by
  intro rooms kk rid body rep lbl h1 h2
  unfold handleMessageRoute routeMonitored
  cases hfind : rooms.find? (fun r => r.id == rid) with
  | none =>
    dsimp only
    by_cases hl : 0 < rooms.length
    · left; rw [if_pos hl]
    · right
      rw [if_neg hl, if_pos (by simp [h1, h2])]
  | some entry =>
    right
    dsimp only
    rw [if_pos (by simp [h1, h2])]

/-- Witness for C9 at a concrete configured label. -/
theorem c9_reply_label_loop_witness :
    handleMessageRoute [{ id := "!r", allowedCommands := some [] }] "[BOT] " [] "!r"
      "[BOT] echo" none = Route.notMonitored ∨
    handleMessageRoute [{ id := "!r", allowedCommands := some [] }] "[BOT] " [] "!r"
      "[BOT] echo" none = Route.ignoredLabel :=
  c9_reply_label_loop _ _ _ _ _ _ (by decide) (by decide)

/-- C2: the knock-knock state store.  Starting an exchange records the entry
at the opener's event id with step 0 and touches no other key; a reply to a
step-0 anchor removes the original key and records step 1 with the same joke
under the new anchor; a reply to a step-1 anchor emits the punchline, removes
the anchor and records nothing; lookups on the empty store or after deletion
(eviction) find nothing; the matched entry is deleted by the handler, so a
duplicate delivery of the same reply finds nothing; key uniqueness is
preserved by every operation. -/
theorem c2_knockknock_state :
    (∀ (s : KKState) (op : String) (j : KnockKnockJoke) (lbl : String),
      kkGet (startKnockKnock s op j lbl) op = some ⟨j, 0, lbl⟩) ∧
    (∀ (s : KKState) (op k : String) (j : KnockKnockJoke) (lbl : String), k ≠ op →
      kkGet (startKnockKnock s op j lbl) k = kkGet s k) ∧
    (∀ (s : KKState) (orig : String) (st : KnockKnockStep) (nw : String),
      kkGet s orig = some st → st.step = 0 → nw ≠ orig →
      kkGet (handleKnockKnockReply s orig st nw).1 orig = none ∧
      kkGet (handleKnockKnockReply s orig st nw).1 nw = some ⟨st.joke, 1, st.label⟩ ∧
      (handleKnockKnockReply s orig st nw).2 = KKAction.sentName nw) ∧
    (∀ (s : KKState) (orig : String) (st : KnockKnockStep) (nw : String),
      kkGet s orig = some st → st.step ≠ 0 →
      (handleKnockKnockReply s orig st nw).2 =
        KKAction.sentPunchline (st.label ++ st.joke.punchline) ∧
      kkGet (handleKnockKnockReply s orig st nw).1 orig = none ∧
      (∀ k, kkGet s k = none → kkGet (handleKnockKnockReply s orig st nw).1 k = none)) ∧
    (∀ k, kkGet ([] : KKState) k = none) ∧
    (∀ (s : KKState) (k : String), kkGet (kkDel s k) k = none) ∧
    (kkWF [] ∧ (∀ s k v, kkWF s → kkWF (kkSet s k v)) ∧
      (∀ s k, kkWF s → kkWF (kkDel s k)) ∧
      (∀ s op j lbl, kkWF s → kkWF (startKnockKnock s op j lbl)) ∧
      (∀ s orig st nw, kkWF s → kkWF (handleKnockKnockReply s orig st nw).1)) := by
  refine ⟨?_, ?_, ?_, ?_, ?_, ?_, ?_, ?_, ?_, ?_, ?_⟩
  · intro s op j lbl
    exact kkGet_set_self s op ⟨j, 0, lbl⟩
  · intro s op k j lbl h
    exact kkGet_set_ne s op k ⟨j, 0, lbl⟩ h
  · intro s orig st nw hget hstep hne
    unfold handleKnockKnockReply
    rw [if_pos hstep]
    dsimp only
    refine ⟨?_, ?_, rfl⟩
    · rw [kkGet_set_ne _ nw orig _ (fun e => hne e.symm)]
      exact kkGet_del_self s orig
    · exact kkGet_set_self _ nw _
  · intro s orig st nw hget hstep
    unfold handleKnockKnockReply
    rw [if_neg hstep]
    dsimp only
    refine ⟨rfl, kkGet_del_self s orig, ?_⟩
    intro k hk
    by_cases hko : k = orig
    · rw [hko]; exact kkGet_del_self s orig
    · rw [kkGet_del_ne s orig k hko]; exact hk
  · intro k; rfl
  · exact kkGet_del_self
  · exact kkWF_nil
  · exact kkWF_set
  · exact kkWF_del
  · intro s op j lbl h
    exact kkWF_set s op ⟨j, 0, lbl⟩ h
  · intro s orig st nw h
    unfold handleKnockKnockReply
    by_cases hstep : st.step = 0
    · rw [if_pos hstep]
      exact kkWF_set _ nw _ (kkWF_del s orig h)
    · rw [if_neg hstep]
      exact kkWF_del s orig h

/-- Witness for C2: a full concrete exchange from the empty store. -/
theorem c2_knockknock_state_witness :
    kkGet (handleKnockKnockReply (startKnockKnock [] "e0" ⟨"Tank", "You're welcome!"⟩ "> ")
        "e0" ⟨⟨"Tank", "You're welcome!"⟩, 0, "> "⟩ "e1").1 "e0" = none ∧
    kkGet (handleKnockKnockReply (startKnockKnock [] "e0" ⟨"Tank", "You're welcome!"⟩ "> ")
        "e0" ⟨⟨"Tank", "You're welcome!"⟩, 0, "> "⟩ "e1").1 "e1" =
      some ⟨⟨"Tank", "You're welcome!"⟩, 1, "> "⟩ ∧
    (handleKnockKnockReply (startKnockKnock [] "e0" ⟨"Tank", "You're welcome!"⟩ "> ")
        "e0" ⟨⟨"Tank", "You're welcome!"⟩, 0, "> "⟩ "e1").2 = KKAction.sentName "e1" :=
  c2_knockknock_state.2.2.1 _ "e0" _ "e1" (by decide) rfl (by decide)

/-- C5 counterexample: a catalog containing "hi" and a room subset ["x"]:
the help message lists only "x" — the reserved always-allowed name "hi" is
not added when it is not a member of the subset. -/
theorem c5_help_message_cex :
    generateHelpMessage ⟨"", [("hi", { response := "hey" }), ("x", { type := "http" })]⟩ ["x"] =
      "Available commands: x" ∧
    containsS "Available commands: x" "hi" = false := by
  constructor
  · rfl
  · decide

/-- C5 (amended): with a non-empty permission subset the help list contains
exactly the subset's names, sorted ascending — the reserved "hi" appears only
when it is itself a member; with no subset (empty list) it lists all catalog
names sorted; the rendered message joins that list. -/
theorem c5_help_message :
    (∀ (bcfg : BotConfig) (allowed : List String) (x : String), allowed ≠ [] →
      (x ∈ generateHelpList bcfg allowed ↔ x ∈ allowed)) ∧
    (∀ (bcfg : BotConfig) (x : String),
      (x ∈ generateHelpList bcfg [] ↔ x ∈ bcfg.commands.map (·.1))) ∧
    (∀ (bcfg : BotConfig) (allowed : List String),
      List.Sorted (fun a b => leS a b = true) (generateHelpList bcfg allowed)) ∧
    (∀ (bcfg : BotConfig) (allowed : List String),
      generateHelpMessage bcfg allowed =
        "Available commands: " ++ String.intercalate ", " (generateHelpList bcfg allowed)) := by
  refine ⟨?_, ?_, ?_, fun _ _ => rfl⟩
  · intro bcfg allowed x h
    unfold generateHelpList
    rw [if_pos (List.length_pos.mpr h)]
    exact (List.perm_insertionSort _ _).mem_iff
  · intro bcfg x
    unfold generateHelpList
    rw [if_neg (by simp)]
    exact (List.perm_insertionSort _ _).mem_iff
  · intro bcfg allowed
    letI : IsTotal String (fun a b => leS a b = true) :=
      ⟨fun a b => leChars_total a.toList b.toList⟩
    letI : IsTrans String (fun a b => leS a b = true) :=
      ⟨fun a b c h1 h2 => leChars_trans a.toList b.toList c.toList h1 h2⟩
    exact List.sorted_insertionSort _ _

/-- Witness for C5 at a concrete subset. -/
theorem c5_help_message_witness :
    "x" ∈ generateHelpList ⟨"", []⟩ ["x"] :=
  (c5_help_message.1 ⟨"", []⟩ ["x"] "x" (by decide)).mpr (by decide)

/-- C6: JSON-path extraction is total and permissive: the spec's examples
hold on the example document; the empty path returns the root; a numeric
segment indexes an array when the scanned index is in range; a missing
object key, an out-of-range index, an unparsable array segment, and
traversal into a string, number, boolean or absent value all return absent
(`none`) — no case raises. -/
theorem c6_json_path :
    extractJSONPath exJson "a.b" = some (Json.str "v") ∧
    (∀ root : Json, extractJSONPath root "" = some root) ∧
    extractJSONPath exJson "missing" = none ∧
    (∀ (a : List Json) (p : String) (rest : List String) (idx : Int),
      sscanfD p = some idx → 0 ≤ idx → idx < (a.length : Int) →
      extractLoop (some (Json.arr a)) (p :: rest) = extractLoop a[idx.toNat]? rest) ∧
    (∀ (m : List (String × Json)) (p : String) (rest : List String),
      jsonLookup m p = none → extractLoop (some (Json.obj m)) (p :: rest) = none) ∧
    (∀ (a : List Json) (p : String) (rest : List String) (idx : Int),
      sscanfD p = some idx → ¬ (0 ≤ idx ∧ idx < (a.length : Int)) →
      extractLoop (some (Json.arr a)) (p :: rest) = none) ∧
    (∀ (a : List Json) (p : String) (rest : List String),
      sscanfD p = none → extractLoop (some (Json.arr a)) (p :: rest) = none) ∧
    (∀ (s : String) (p : String) (rest : List String),
      extractLoop (some (Json.str s)) (p :: rest) = none) ∧
    (∀ (n : Int) (p : String) (rest : List String),
      extractLoop (some (Json.num n)) (p :: rest) = none) ∧
    (∀ (b : Bool) (p : String) (rest : List String),
      extractLoop (some (Json.bool b)) (p :: rest) = none) ∧
    (∀ (p : String) (rest : List String),
      extractLoop (none : Option Json) (p :: rest) = none) := by
  refine ⟨rfl, ?_, rfl, ?_, ?_, ?_, ?_, fun _ _ _ => rfl, fun _ _ _ => rfl,
    fun _ _ _ => rfl, fun _ _ => rfl⟩
  · intro root
    unfold extractJSONPath
    rw [if_pos rfl]
  · intro a p rest idx hscan h0 hlt
    simp only [extractLoop]
    rw [hscan]
    dsimp only
    rw [if_pos ⟨h0, hlt⟩]
  · intro m p rest hnone
    unfold extractLoop
    rw [hnone]
    cases rest <;> rfl
  · intro a p rest idx hscan hrange
    unfold extractLoop
    rw [hscan]
    dsimp only
    rw [if_neg hrange]
  · intro a p rest hscan
    unfold extractLoop
    rw [hscan]

/-- Witness for C6: in-range and out-of-range array indexing at concrete
values. -/
theorem c6_json_path_witness :
    extractLoop (some (Json.arr [Json.str "x", Json.str "y"])) ["1"] =
      extractLoop ([Json.str "x", Json.str "y"][(1 : Int).toNat]?) [] ∧
    extractLoop (some (Json.obj [("k", Json.str "v")])) ["zz"] = none ∧
    extractLoop (some (Json.arr [Json.str "x"])) ["7"] = none :=
  ⟨c6_json_path.2.2.2.1 [Json.str "x", Json.str "y"] "1" [] 1 rfl (by decide) (by decide),
   c6_json_path.2.2.2.2.1 [("k", Json.str "v")] "zz" [] rfl,
   c6_json_path.2.2.2.2.2.1 [Json.str "x"] "7" [] 7 rfl (by decide)⟩

/-- C7: token-budget truncation.  An already-short text (estimated tokens
within the budget) is returned unchanged; truncation is idempotent; every
result fits in the budget's character equivalent plus the integer-division
allowance (4·limit + 3); and when the truncated window's last line break
lies past the midpoint of the character budget, the cut falls exactly on
that line break. -/
theorem c7_truncate_text :
    (∀ (t : List Char) (L : Nat), t.length / 4 ≤ L → truncateText t L = t) ∧
    (∀ (t : List Char) (L : Nat), truncateText (truncateText t L) L = truncateText t L) ∧
    (∀ (t : List Char) (L : Nat), (truncateText t L).length ≤ 4 * L + 3) ∧
    (∀ (t : List Char) (L : Nat) (i : Nat), ¬ t.length / 4 ≤ L →
      lastIdxOf '\n' (t.take (L * 4)) = some i → L * 4 / 2 < i →
      truncateText t L = (t.take (L * 4)).take i ∧ (t.take (L * 4))[i]? = some '\n') := by
  refine ⟨truncateText_short, ?_, ?_, ?_⟩
  · intro t L
    by_cases h : t.length / 4 ≤ L
    · rw [truncateText_short t L h]
      exact truncateText_short t L h
    · apply truncateText_short
      have hb := truncLen_le t L h
      calc (truncateText t L).length / 4 ≤ 4 * L / 4 := Nat.div_le_div_right hb
      _ = L := by omega
  · intro t L
    by_cases h : t.length / 4 ≤ L
    · rw [truncateText_short t L h]
      have hq := Nat.div_add_mod t.length 4
      have hm : t.length % 4 < 4 := Nat.mod_lt _ (by norm_num)
      omega
    · have := truncLen_le t L h
      omega
  · intro t L i h hfind hi
    have hq := Nat.div_add_mod t.length 4
    have hm : t.length % 4 < 4 := Nat.mod_lt _ (by norm_num)
    have hlt : L < t.length / 4 := Nat.lt_of_not_le h
    have hlen : L * 4 < t.length := by omega
    refine ⟨?_, lastIdxOf_get '\n' _ i hfind⟩
    unfold truncateText
    rw [if_neg h]
    dsimp only
    rw [if_pos hlen, hfind]
    dsimp only
    rw [if_pos hi]

/-- Witness for C7: a 13-character text with a newline past the midpoint of
a 2-token budget is cut exactly at the newline; a short text is unchanged. -/
theorem c7_truncate_text_witness :
    truncateText "abc".toList 5 = "abc".toList ∧
    truncateText "aaaaaa\nbbbbbb".toList 2 =
      (("aaaaaa\nbbbbbb".toList).take (2 * 4)).take 6 ∧
    (("aaaaaa\nbbbbbb".toList).take (2 * 4))[6]? = some '\n' :=
  ⟨c7_truncate_text.1 "abc".toList 5 (by decide),
   (c7_truncate_text.2.2.2 "aaaaaa\nbbbbbb".toList 2 6 (by decide) (by decide) (by decide)).1,
   (c7_truncate_text.2.2.2 "aaaaaa\nbbbbbb".toList 2 6 (by decide) (by decide) (by decide)).2⟩

/-- C3 counterexample: with in-window counts alice 10, bob 6, carol 1, bob
guessing rank 1 (actual rank 2) is answered with a "1 position(s) higher
than you thought" message — not a "lower" one as the claim states: the code
prints "higher" when the guess is numerically smaller than the actual rank. -/
theorem c3_yap_guess_cex :
    queryYapGuess exYapMsgs "!r" "@bob" 0 "1" "" =
      "you guessed #1 but you're actually #2 (6 words) — 1 position(s) higher than you thought" ∧
    containsS (queryYapGuess exYapMsgs "!r" "@bob" 0 "1" "") "lower" = false := by
  constructor
  · decide
  · decide

/-- C3 (amended): the guess query reports the actual rank and total with a
ternary message — exact when the guess equals the actual rank, the word
"lower" when the guess exceeds the actual rank, the word "higher" when the
guess is below it, always with the absolute distance; bob guessing 1 at
actual rank 2 gets the "1 position(s) higher" message, alice guessing 1 gets
the exact-match message, and a sender with no qualifying messages gets the
distinct "no messages" reply rather than an error. -/
theorem c3_yap_guess_rank :
    (queryYapGuess exYapMsgs "!r" "@bob" 0 "1" "" =
      "you guessed #1 but you're actually #2 (6 words) — 1 position(s) higher than you thought") ∧
    (queryYapGuess exYapMsgs "!r" "@alice" 0 "1" "" =
      "you guessed #1 — that's exactly right! (10 words)") ∧
    (queryYapGuess exYapMsgs "!r" "@nobody" 0 "1" "" = "you have no messages today!") ∧
    (∀ (msgs : List Msg) (room sender : String) (cutoff : Int) (lbl g : String)
      (pos w : Nat),
      guessScan (yapRanking msgs room cutoff) sender 0 = some (pos, w) →
      (parseGuess g = pos →
        queryYapGuess msgs room sender cutoff g lbl =
          lbl ++ "you guessed #" ++ toString pos ++ " — that's exactly right! (" ++
            toString w ++ " words)") ∧
      (pos < parseGuess g →
        queryYapGuess msgs room sender cutoff g lbl =
          lbl ++ "you guessed #" ++ toString (parseGuess g) ++ " but you're actually #" ++
            toString pos ++ " (" ++ toString w ++ " words) — " ++
            toString (parseGuess g - pos) ++ " position(s) " ++ "lower" ++
            " than you thought") ∧
      (parseGuess g < pos →
        queryYapGuess msgs room sender cutoff g lbl =
          lbl ++ "you guessed #" ++ toString (parseGuess g) ++ " but you're actually #" ++
            toString pos ++ " (" ++ toString w ++ " words) — " ++
            toString (pos - parseGuess g) ++ " position(s) " ++ "higher" ++
            " than you thought")) ∧
    (∀ (msgs : List Msg) (room sender : String) (cutoff : Int) (lbl g : String),
      guessScan (yapRanking msgs room cutoff) sender 0 = none →
      queryYapGuess msgs room sender cutoff g lbl = "you have no messages today!") := by
  refine ⟨by decide, by decide, by decide, ?_, ?_⟩
  · intro msgs room sender cutoff lbl g pos w hscan
    refine ⟨?_, ?_, ?_⟩
    · intro hg
      unfold queryYapGuess
      rw [hscan]
      dsimp only
      rw [if_pos hg, hg]
    · intro hpos
      have hne : ¬ (parseGuess g = pos) := by omega
      unfold queryYapGuess
      rw [hscan]
      dsimp only
      rw [if_neg hne]
      rw [if_pos hpos, if_pos hpos]
    · intro hpos
      have hne : ¬ (parseGuess g = pos) := by omega
      have hnlt : ¬ (pos < parseGuess g) := by omega
      unfold queryYapGuess
      rw [hscan]
      dsimp only
      rw [if_neg hne]
      rw [if_neg hnlt, if_neg hnlt]
  · intro msgs room sender cutoff lbl g hscan
    unfold queryYapGuess
    rw [hscan]

/-- Witness for C3: carol (rank 3, 1 word) guessing 5 gets the "lower"
message at distance 2. -/
theorem c3_yap_guess_rank_witness :
    queryYapGuess exYapMsgs "!r" "@carol" 0 "5" "" =
      "" ++ "you guessed #" ++ toString (parseGuess "5") ++ " but you're actually #" ++
        toString 3 ++ " (" ++ toString 1 ++ " words) — " ++
        toString (parseGuess "5" - 3) ++ " position(s) " ++ "lower" ++ " than you thought" :=
  (c3_yap_guess_rank.2.2.2.1 exYapMsgs "!r" "@carol" 0 "" "5" 3 1 (by decide)).2.1 (by decide)

/-- C8 counterexample: a single in-window message with body "a  b" (two
spaces) scores 3 = spaces + 1, while it has only 2 whitespace-delimited
tokens — the ranking's score is not the token count the claim states. -/
theorem c8_top_yappers_cex :
    queryTopYappers [⟨"r", "u", 1, "a  b", "m.text"⟩] "r" 0 "" = [("u", 3)] ∧
    (fieldsL "a  b".toList).length = 2 := by
  constructor
  · decide
  · decide

/-- The cap applied by QueryTopYappers to its LIMIT. -/
theorem cap50_le (n : Nat) : (if 50 < n then 50 else n) ≤ 50 := by
  split <;> omega

/-- C8 (amended): topSenders groups the in-window, non-command,
non-bot-marked text messages (room match, timestamp in window, body not
starting with "[BOT]" or "/bot ", type m.text) by sender; each listed
sender's score is the sum over their qualifying messages of one plus the
number of space characters in the body (the SQL word count), and every
listed sender has at least one qualifying message; the list is ordered
descending by score and truncated to the limit — default 5 with no
argument, hard cap 50 for any argument. -/
theorem c8_top_yappers :
    (∀ (msgs : List Msg) (room : String) (cutoff : Int) (args : String) (p : String × Nat),
      p ∈ queryTopYappers msgs room cutoff args →
      p.2 = yapScore msgs room cutoff p.1 ∧
      ∃ m, m ∈ msgs ∧ yapFilter room cutoff m = true ∧ m.sender = p.1) ∧
    (∀ (msgs : List Msg) (room : String) (cutoff : Int) (args : String),
      List.Pairwise (fun a b : String × Nat => b.2 ≤ a.2)
        (queryTopYappers msgs room cutoff args)) ∧
    (∀ (msgs : List Msg) (room : String) (cutoff : Int) (args : String),
      (queryTopYappers msgs room cutoff args).length ≤ parseLimit args) ∧
    parseLimit "" = 5 ∧
    (∀ args, parseLimit args ≤ 50) := by
  refine ⟨?_, ?_, ?_, rfl, ?_⟩
  · intro msgs room cutoff args p hp
    have h1 : p ∈ yapRanking msgs room cutoff := (List.take_sublist _ _).subset hp
    unfold yapRanking at h1
    rw [(List.perm_insertionSort _ _).mem_iff] at h1
    obtain ⟨s, hs, rfl⟩ := List.mem_map.mp h1
    constructor
    · rfl
    · have hs' : s ∈ (msgs.filter (yapFilter room cutoff)).map (·.sender) :=
        firstDedup_subset _ _ _ hs
      obtain ⟨m, hm, hsend⟩ := List.mem_map.mp hs'
      have hmf := List.mem_filter.mp hm
      exact ⟨m, hmf.1, hmf.2, hsend⟩
  · intro msgs room cutoff args
    unfold queryTopYappers yapRanking
    letI : IsTotal (String × Nat) (fun a b => b.2 ≤ a.2) := ⟨fun a b => le_total b.2 a.2⟩
    letI : IsTrans (String × Nat) (fun a b => b.2 ≤ a.2) :=
      ⟨fun a b c h1 h2 => le_trans h2 h1⟩
    exact (List.sorted_insertionSort _ _).sublist (List.take_sublist _ _)
  · intro msgs room cutoff args
    unfold queryTopYappers
    simp [List.length_take]
  · intro args
    unfold parseLimit
    dsimp only
    exact cap50_le _

/-- Witness for C8: the single listed sender's score is the SQL word count
of their one qualifying message. -/
theorem c8_top_yappers_witness :
    (("u", 3) : String × Nat).2 = yapScore [⟨"r", "u", 1, "a  b", "m.text"⟩] "r" 0 "u" ∧
    ∃ m, m ∈ [(⟨"r", "u", 1, "a  b", "m.text"⟩ : Msg)] ∧ yapFilter "r" 0 m = true ∧
      m.sender = "u" := by
  have h := c8_top_yappers.1 [⟨"r", "u", 1, "a  b", "m.text"⟩] "r" 0 "" ("u", 3) (by decide)
  exact h
